import Mathlib

/-!
Verification of the task-list state-management logic of a to-do
application. The repository contains several iterations of the same
screen; we embed the task model and the mutating operations of the
richest iteration (the file with the STORAGE_KEY constant, called
part_001 below), of the active tab screen (index.tsx, suffix Idx), and
the add operation of the earlier iteration part_000 (suffix V0).

React state updates are embedded as pure list transformations; an early
return from a handler (no setTasks call, hence no save effect) is
embedded as the value none of an Option result. The persisted snapshot
is embedded at the structured level, in two layers: a full model of the
load path (loadTasksJs, loadTasksJsIdx, loadTasksV0) whose input is
absent, a value on which JSON.parse throws, a parsed non-array value,
or a parsed array of records read field-by-field with every expected
key possibly absent; and a restriction of it to well-formed stored
values (loadTasks, loadTasksIdx) used for the claims that assume them.
A missing JSON key reads as undefined, which triggers the constructor
default for the defaulted boolean parameters and is stored as-is for
id and title.
-/

namespace Todo

/-- Embedding of the JavaScript String.prototype.trim used by the
handlers: removes leading and trailing whitespace characters. -/
def jsTrim (s : String) : String :=
  String.mk (((s.data.dropWhile Char.isWhitespace).reverse.dropWhile Char.isWhitespace).reverse)

/-- Task model of part_001 / part_000: class Task with id, title,
completed (default false) and isEditing (default false). -/
structure Task where
  id : String
  title : String
  completed : Bool
  isEditing : Bool
deriving Repr, DecidableEq

/-- Task model of index.tsx: class Task with id, title and completed
only (no editing flag on the record). -/
structure TaskIdx where
  id : String
  title : String
  completed : Bool
deriving Repr, DecidableEq

/-- Shape of one record inside the persisted JSON array. The boolean
fields are optional: a stored object may lack the key, in which case
the rehydrating constructor call receives undefined and falls back to
the default false. -/
structure StoredTask where
  id : String
  title : String
  completed : Option Bool
  isEditing : Option Bool
deriving Repr, DecidableEq

/-- part_001 addTask: if (taskTitle.trim() === '') return; else append
new Task(Date.now().toString(), taskTitle.trim()). The clock value is
an explicit argument; none embeds the early return (no setTasks, no
save effect). -/
def addTask (now title : String) (tasks : List Task) : Option (List Task) :=
  if jsTrim title = "" then none
  else some (tasks ++ [Task.mk now (jsTrim title) false false])

/-- index.tsx addTask: same guard, but the appended task keeps the raw
title (new Task(Date.now().toString(), taskTitle) without trim). -/
def addTaskIdx (now title : String) (tasks : List TaskIdx) : Option (List TaskIdx) :=
  if jsTrim title = "" then none
  else some (tasks ++ [TaskIdx.mk now title false])

/-- part_000 addTask: same guard as index.tsx, raw title, four-field
Task record. -/
def addTaskV0 (now title : String) (tasks : List Task) : Option (List Task) :=
  if jsTrim title = "" then none
  else some (tasks ++ [Task.mk now title false false])

/-- part_001 removeTask: tasks.filter(task => task.id !== id). -/
def removeTask (id : String) (tasks : List Task) : List Task :=
  tasks.filter (fun task => task.id ≠ id)

/-- index.tsx removeTask: identical filter on the three-field record. -/
def removeTaskIdx (id : String) (tasks : List TaskIdx) : List TaskIdx :=
  tasks.filter (fun task => task.id ≠ id)

/-- part_001 toggleTask: map each task; on id match rebuild with
negated completed, keeping title and isEditing. -/
def toggleTask (id : String) (tasks : List Task) : List Task :=
  tasks.map (fun task =>
    if task.id = id then Task.mk task.id task.title (!task.completed) task.isEditing
    else task)

/-- index.tsx toggleTask: same map on the three-field record. -/
def toggleTaskIdx (id : String) (tasks : List TaskIdx) : List TaskIdx :=
  tasks.map (fun task =>
    if task.id = id then TaskIdx.mk task.id task.title (!task.completed)
    else task)

/-- part_001 editTask: the matching task gets isEditing := true, every
other task gets isEditing := false. -/
def editTask (id : String) (tasks : List Task) : List Task :=
  tasks.map (fun task =>
    if task.id = id then { task with isEditing := true }
    else { task with isEditing := false })

/-- part_001 cancelEdit: every task gets isEditing := false. -/
def cancelEdit (tasks : List Task) : List Task :=
  tasks.map (fun task => { task with isEditing := false })

/-- part_001 updateTask: on id match rebuild with newTitle.trim() as
title, same completed, isEditing := false. There is no emptiness guard
on the trimmed title. -/
def updateTask (id newTitle : String) (tasks : List Task) : List Task :=
  tasks.map (fun task =>
    if task.id = id then Task.mk task.id (jsTrim newTitle) task.completed false
    else task)

/-- index.tsx onSubmitEditing handler: on id match rebuild with the raw
editingTitle (no trim, no guard), same completed. -/
def renameSubmitIdx (id editingTitle : String) (tasks : List TaskIdx) : List TaskIdx :=
  tasks.map (fun task =>
    if task.id = id then TaskIdx.mk task.id editingTitle task.completed
    else task)

/-- Outcome of the load effect of part_001: the resulting in-memory
collection (setTasks argument, or the untouched empty list) and whether
the catch branch reported an error (Alert.alert). -/
structure LoadResult where
  tasks : List Task
  errorReported : Bool
deriving Repr, DecidableEq

/-- Outcome of the load effect of index.tsx: collection plus whether
the catch branch reported the failure (console.error). -/
structure LoadResultIdx where
  tasks : List TaskIdx
  errorReported : Bool
deriving Repr, DecidableEq

/-- part_001 loadTasks, restricted to well-formed stored values: the
slot is none when no value is stored, some none when the try block
throws on the stored value, some (some l) when it parses to a list of
records of the expected shape. On absence nothing happens; on a throw
the catch branch alerts and setTasks is never called; on success each
record is rehydrated by new Task(t.id, t.title, t.completed,
t.isEditing), absent boolean fields falling back to the constructor
defaults. Stored values that parse without throwing but are not of the
expected shape are outside this restriction; they are covered by the
full model loadTasksJs below, which this function agrees with on
well-formed values (loadTasksJs_on_wellformed). -/
def loadTasks (stored : Option (Option (List StoredTask))) : LoadResult :=
  match stored with
  | none => LoadResult.mk [] false
  | some none => LoadResult.mk [] true
  | some (some l) =>
      LoadResult.mk
        (l.map (fun t => Task.mk t.id t.title (t.completed.getD false) (t.isEditing.getD false)))
        false

/-- index.tsx loadTasks, restricted to well-formed stored values (see
loadTasks above): rehydration is new Task(t.id, t.title, t.completed),
dropping any stored editing flag because the record type has no such
field. The full model is loadTasksJsIdx below, which this function
agrees with on well-formed values (loadTasksJsIdx_on_wellformed). -/
def loadTasksIdx (stored : Option (Option (List StoredTask))) : LoadResultIdx :=
  match stored with
  | none => LoadResultIdx.mk [] false
  | some none => LoadResultIdx.mk [] true
  | some (some l) =>
      LoadResultIdx.mk
        (l.map (fun t => TaskIdx.mk t.id t.title (t.completed.getD false)))
        false

/-- part_001 saveTasks: JSON.stringify(tasks) serializes every own
field of each record, including isEditing. -/
def saveTasks (tasks : List Task) : List StoredTask :=
  tasks.map (fun t => StoredTask.mk t.id t.title (some t.completed) (some t.isEditing))

/-- index.tsx saveTasks: its records have no editing flag, so the
serialized objects lack the isEditing key. -/
def saveTasksIdx (tasks : List TaskIdx) : List StoredTask :=
  tasks.map (fun t => StoredTask.mk t.id t.title (some t.completed) none)

/-- One element of a parsed JSON array as the load path reads it: each
expected property access yields the stored value or undefined (none):
the record may lack any of the keys id, title, completed, isEditing;
keys the load path never reads are invisible to it and not modelled. -/
structure RawStored where
  id : Option String
  title : Option String
  completed : Option Bool
  isEditing : Option Bool
deriving Repr, DecidableEq

/-- What JSON.parse does to a present stored string: thrown when the
string is not valid JSON (JSON.parse throws); nonArray when it parses
to a value without a map method, so that parsed.map itself throws a
TypeError inside the same try block of part_001 and index.tsx; array l
when it parses to an array of objects, each read field-by-field with
no shape validation. -/
inductive ParsedValue where
  | thrown
  | nonArray
  | array (l : List RawStored)
deriving Repr, DecidableEq

/-- A task as actually produced by rehydrating an arbitrary parsed
record: new Task(t.id, t.title, t.completed, t.isEditing) stores
undefined (none) for an absent id or title, which have no constructor
default, while absent completed and isEditing fall back to false. -/
structure TaskJs where
  id : Option String
  title : Option String
  completed : Bool
  isEditing : Bool
deriving Repr, DecidableEq

/-- index.tsx version of TaskJs: no editing flag on the record. -/
structure TaskJsIdx where
  id : Option String
  title : Option String
  completed : Bool
deriving Repr, DecidableEq

/-- Outcome of the full part_001 load: collection plus whether the
catch branch reported (Alert.alert). -/
structure LoadResultJs where
  tasks : List TaskJs
  errorReported : Bool
deriving Repr, DecidableEq

/-- Outcome of the full index.tsx load: collection plus whether the
catch branch reported (console.error). -/
structure LoadResultJsIdx where
  tasks : List TaskJsIdx
  errorReported : Bool
deriving Repr, DecidableEq

/-- State of the part_000 collection after its load: empty when
setTasks was never called, set l when setTasks received a parsed
array of records, nonList when setTasks received a parsed non-array
value so the state variable no longer holds a list at all. -/
inductive V0State where
  | empty
  | set (l : List RawStored)
  | nonList
deriving Repr, DecidableEq

/-- Full model of part_001 loadTasks over arbitrary stored values. A
throw of JSON.parse, or of parsed.map on a non-array, is caught and
alerted with setTasks never called; but a stored value parsing to an
array of records of any shape is rehydrated record-by-record with no
validation and silently installed, mis-shaped records included. -/
def loadTasksJs (stored : Option ParsedValue) : LoadResultJs :=
  match stored with
  | none => LoadResultJs.mk [] false
  | some ParsedValue.thrown => LoadResultJs.mk [] true
  | some ParsedValue.nonArray => LoadResultJs.mk [] true
  | some (ParsedValue.array l) =>
      LoadResultJs.mk
        (l.map (fun t => TaskJs.mk t.id t.title (t.completed.getD false) (t.isEditing.getD false)))
        false

/-- Full model of index.tsx loadTasks: same structure, rehydration by
new Task(t.id, t.title, t.completed). -/
def loadTasksJsIdx (stored : Option ParsedValue) : LoadResultJsIdx :=
  match stored with
  | none => LoadResultJsIdx.mk [] false
  | some ParsedValue.thrown => LoadResultJsIdx.mk [] true
  | some ParsedValue.nonArray => LoadResultJsIdx.mk [] true
  | some (ParsedValue.array l) =>
      LoadResultJsIdx.mk
        (l.map (fun t => TaskJsIdx.mk t.id t.title (t.completed.getD false)))
        false

/-- Full model of part_000 loadTasks: const json = await getItem; if
(json) setTasks(JSON.parse(json)). There is no try/catch and no
reporting code at all, so the Bool (something was reported) is false
in every case: a JSON.parse throw escapes as an unhandled rejection
with setTasks never called, and any parsed value, array of raw records
or not, is installed directly without rehydration or validation. -/
def loadTasksV0 (stored : Option ParsedValue) : V0State × Bool :=
  match stored with
  | none => (V0State.empty, false)
  | some ParsedValue.thrown => (V0State.empty, false)
  | some ParsedValue.nonArray => (V0State.nonList, false)
  | some (ParsedValue.array l) => (V0State.set l, false)

/-- A well-formed stored record, as an arbitrary parsed record: both
string keys present, boolean keys as stored. -/
def rawOfStored (s : StoredTask) : RawStored :=
  RawStored.mk (some s.id) (some s.title) s.completed s.isEditing

lemma loadTasksJs_on_wellformed (l : List StoredTask) :
    loadTasksJs (some (ParsedValue.array (l.map rawOfStored))) =
      LoadResultJs.mk
        ((loadTasks (some (some l))).tasks.map
          (fun t => TaskJs.mk (some t.id) (some t.title) t.completed t.isEditing))
        false := by
  simp only [loadTasksJs, loadTasks, List.map_map, LoadResultJs.mk.injEq, and_true]
  exact List.map_congr_left (fun t _ => rfl)

lemma loadTasksJsIdx_on_wellformed (l : List StoredTask) :
    loadTasksJsIdx (some (ParsedValue.array (l.map rawOfStored))) =
      LoadResultJsIdx.mk
        ((loadTasksIdx (some (some l))).tasks.map
          (fun t => TaskJsIdx.mk (some t.id) (some t.title) t.completed))
        false := by
  simp only [loadTasksJsIdx, loadTasksIdx, List.map_map, LoadResultJsIdx.mk.injEq, and_true]
  exact List.map_congr_left (fun t _ => rfl)

/-- The id projection of a collection, in order. -/
def idsOf (tasks : List Task) : List String :=
  tasks.map Task.id

/-- The id projection of an index.tsx collection, in order. -/
def idsOfIdx (tasks : List TaskIdx) : List String :=
  tasks.map TaskIdx.id

/-- Number of tasks currently marked as being edited. -/
def countEditing (tasks : List Task) : Nat :=
  (tasks.filter (fun t => t.isEditing)).length

/-- One user-level mutation of the part_001 store. add carries the
clock value Date.now().toString() as an explicit argument. -/
inductive Op where
  | add (now title : String)
  | remove (id : String)
  | toggle (id : String)
  | rename (id title : String)
  | edit (id : String)
  | cancel
deriving Repr, DecidableEq

/-- Apply one operation to the current collection. A none result of
addTask is an early return: the state is unchanged. -/
def step (tasks : List Task) : Op → List Task
  | Op.add now title => (addTask now title tasks).getD tasks
  | Op.remove id => removeTask id tasks
  | Op.toggle id => toggleTask id tasks
  | Op.rename id title => updateTask id title tasks
  | Op.edit id => editTask id tasks
  | Op.cancel => cancelEdit tasks

/-- Run a sequence of operations from a starting collection. -/
def runFrom (tasks : List Task) : List Op → List Task
  | [] => tasks
  | op :: rest => runFrom (step tasks op) rest

/-- Run a sequence of operations from the empty collection. -/
def run (ops : List Op) : List Task :=
  runFrom [] ops

/-- Whether an operation respects id freshness at the current state:
an add must carry a clock value that is not an existing id. The code
performs no such check; this predicate captures the assumption that
Date.now() never repeats an id already in the collection. -/
def freshOk (tasks : List Task) : Op → Bool
  | Op.add now _ => !((idsOf tasks).contains now)
  | _ => true

/-- Whether every add along the run of the operation sequence carries a
fresh id at the moment it executes. -/
def freshAlong (tasks : List Task) : List Op → Bool
  | [] => true
  | op :: rest => freshOk tasks op && freshAlong (step tasks op) rest

lemma idsOf_map_of_id_eq (f : Task → Task) (h : ∀ t, (f t).id = t.id) (ts : List Task) :
    idsOf (ts.map f) = idsOf ts := by
  simp only [idsOf, List.map_map]
  exact List.map_congr_left (fun t _ => h t)

lemma idsOf_toggleTask (id : String) (ts : List Task) :
    idsOf (toggleTask id ts) = idsOf ts :=
  idsOf_map_of_id_eq _ (fun t => by by_cases h : t.id = id <;> simp [h]) ts

lemma idsOf_updateTask (id title : String) (ts : List Task) :
    idsOf (updateTask id title ts) = idsOf ts :=
  idsOf_map_of_id_eq _ (fun t => by by_cases h : t.id = id <;> simp [h]) ts

lemma idsOf_editTask (id : String) (ts : List Task) :
    idsOf (editTask id ts) = idsOf ts :=
  idsOf_map_of_id_eq _ (fun t => by by_cases h : t.id = id <;> simp [h]) ts

lemma idsOf_cancelEdit (ts : List Task) :
    idsOf (cancelEdit ts) = idsOf ts :=
  idsOf_map_of_id_eq _ (fun t => by simp) ts

lemma countEditing_append (ts : List Task) (t : Task) :
    countEditing (ts ++ [t]) = countEditing ts + (if t.isEditing then 1 else 0) := by
  cases h : t.isEditing <;>
    simp [countEditing, List.filter_append, List.filter_cons, h]

lemma countEditing_map_le (f : Task → Task)
    (h : ∀ t, (f t).isEditing = true → t.isEditing = true) (ts : List Task) :
    countEditing (ts.map f) ≤ countEditing ts := by
  induction ts with
  | nil => simp [countEditing]
  | cons a l ih =>
    simp only [countEditing, List.map_cons, List.filter_cons] at ih ⊢
    cases hfa : (f a).isEditing with
    | false =>
      cases ha : a.isEditing <;> simp [hfa, ha] <;> omega
    | true =>
      have ha := h a hfa
      simp only [hfa, ha, if_pos, List.length_cons]
      omega

lemma countEditing_map_eq (f : Task → Task)
    (h : ∀ t, (f t).isEditing = t.isEditing) (ts : List Task) :
    countEditing (ts.map f) = countEditing ts := by
  induction ts with
  | nil => rfl
  | cons a l ih =>
    simp only [countEditing, List.map_cons, List.filter_cons, h a] at ih ⊢
    cases ha : a.isEditing <;> simp [ha, ih]

lemma countEditing_cancelEdit (ts : List Task) :
    countEditing (cancelEdit ts) = 0 := by
  induction ts with
  | nil => rfl
  | cons a l ih =>
    simp only [cancelEdit, countEditing, List.map_cons, List.filter_cons] at ih ⊢
    simp only [decide_eq_true_eq, if_false, Bool.false_eq_true]
    exact ih

lemma countEditing_editTask (id : String) (ts : List Task) :
    countEditing (editTask id ts) = (ts.filter (fun t => t.id = id)).length := by
  induction ts with
  | nil => rfl
  | cons a l ih =>
    by_cases h : a.id = id <;>
      simpa [editTask, countEditing, List.filter_cons, h] using ih

lemma length_filter_id_le_one (id : String) (ts : List Task)
    (hn : (idsOf ts).Nodup) :
    (ts.filter (fun t => t.id = id)).length ≤ 1 := by
  induction ts with
  | nil => simp
  | cons a l ih =>
    simp only [idsOf, List.map_cons, List.nodup_cons] at hn
    obtain ⟨ha, hl⟩ := hn
    by_cases h : a.id = id
    · have hnil : l.filter (fun t => t.id = id) = [] := by
        rw [List.filter_eq_nil_iff]
        intro t ht hti
        rw [decide_eq_true_eq] at hti
        have hm : t.id ∈ l.map Task.id := List.mem_map_of_mem Task.id ht
        rw [hti, ← h] at hm
        exact ha hm
      simp [List.filter_cons, h, hnil]
    · simp only [List.filter_cons]
      rw [if_neg (by simpa using h)]
      exact ih (by simpa [idsOf] using hl)

lemma nodup_ids_append (ts : List Task) (t : Task)
    (hn : (idsOf ts).Nodup) (hf : t.id ∉ idsOf ts) :
    (idsOf (ts ++ [t])).Nodup := by
  simp only [idsOf, List.map_append, List.map_cons, List.map_nil] at *
  simp [List.nodup_append, hn, hf]

lemma step_preserves_inv (ts : List Task) (op : Op)
    (hn : (idsOf ts).Nodup) (hc : countEditing ts ≤ 1)
    (hf : freshOk ts op = true) :
    (idsOf (step ts op)).Nodup ∧ countEditing (step ts op) ≤ 1 := by
  cases op with
  | add now title =>
    simp only [step, addTask]
    by_cases ht : jsTrim title = ""
    · simpa [ht] using ⟨hn, hc⟩
    · have hfresh : now ∉ idsOf ts := by
        simpa [freshOk] using hf
      simp only [ht, if_neg, Option.getD_some, ite_false]
      constructor
      · exact nodup_ids_append ts _ hn hfresh
      · rw [countEditing_append]
        simpa using hc
  | remove id =>
    constructor
    · exact hn.sublist ((List.filter_sublist ts).map Task.id)
    · exact le_trans ((List.filter_sublist ts).filter _).length_le hc
  | toggle id =>
    refine ⟨by simpa [step] using (idsOf_toggleTask id ts) ▸ hn, ?_⟩
    have := countEditing_map_eq
      (fun task => if task.id = id then Task.mk task.id task.title (!task.completed) task.isEditing else task)
      (fun t => by by_cases h : t.id = id <;> simp [h]) ts
    simpa [step, toggleTask] using le_trans (le_of_eq this) hc
  | rename id title =>
    refine ⟨by simpa [step] using (idsOf_updateTask id title ts) ▸ hn, ?_⟩
    have := countEditing_map_le
      (fun task => if task.id = id then Task.mk task.id (jsTrim title) task.completed false else task)
      (fun t => by by_cases h : t.id = id <;> simp [h]) ts
    simpa [step, updateTask] using le_trans this hc
  | edit id =>
    refine ⟨by simpa [step] using (idsOf_editTask id ts) ▸ hn, ?_⟩
    calc countEditing (step ts (Op.edit id))
        = (ts.filter (fun t => t.id = id)).length := countEditing_editTask id ts
      _ ≤ 1 := length_filter_id_le_one id ts hn
  | cancel =>
    refine ⟨by simpa [step] using (idsOf_cancelEdit ts) ▸ hn, ?_⟩
    simpa [step] using le_of_eq_of_le (countEditing_cancelEdit ts) (Nat.zero_le 1)

lemma runFrom_preserves_inv (ops : List Op) :
    ∀ ts, (idsOf ts).Nodup → countEditing ts ≤ 1 → freshAlong ts ops = true →
      (idsOf (runFrom ts ops)).Nodup ∧ countEditing (runFrom ts ops) ≤ 1 := by
  induction ops with
  | nil => exact fun ts hn hc _ => ⟨hn, hc⟩
  | cons op rest ih =>
    intro ts hn hc hf
    simp only [freshAlong, Bool.and_eq_true] at hf
    obtain ⟨h1, h2⟩ := hf
    obtain ⟨hn', hc'⟩ := step_preserves_inv ts op hn hc h1
    exact ih (step ts op) hn' hc' h2

/-- C1 counterexample: renaming task 1 of the singleton collection to
the empty string is not a no-op in part_001 updateTask; the stored
title becomes the empty string instead of the retained old title. -/
theorem updateTask_blank_rename_changes_title :
    updateTask "1" "" [Task.mk "1" "Old" false true] = [Task.mk "1" "" false false] ∧
    ("Old" : String) ≠ "" := by
  exact ⟨by decide, by decide⟩

/-- C1 (amended): part_001 updateTask unconditionally stores the
trimmed new title on the matching task, keeping completed and clearing
the editing flag, with no emptiness guard, so rename to blank stores
the empty title; the index.tsx submit handler stores the raw new title
without trimming. -/
theorem updateTask_stores_trimmed_title
    (ts : List Task) (i : Nat) (t : Task) (id newTitle : String)
    (ht : ts[i]? = some t) (hid : t.id = id)
    (l : List TaskIdx) (j : Nat) (u : TaskIdx)
    (hu : l[j]? = some u) (huid : u.id = id) :
    (updateTask id newTitle ts)[i]? =
      some (Task.mk t.id (jsTrim newTitle) t.completed false) ∧
    (renameSubmitIdx id newTitle l)[j]? =
      some (TaskIdx.mk u.id newTitle u.completed) := by
  constructor
  · rw [updateTask, List.getElem?_map, ht]
    simp [hid]
  · rw [renameSubmitIdx, List.getElem?_map, hu]
    simp [huid]

/-- C1 witness of the amended theorem at a concrete collection. -/
theorem updateTask_stores_trimmed_title_witness :
    (updateTask "1" "  New Title  " [Task.mk "1" "Old" true true])[0]? =
      some (Task.mk "1" "New Title" true false) ∧
    (renameSubmitIdx "1" "  New Title  " [TaskIdx.mk "1" "Old" false])[0]? =
      some (TaskIdx.mk "1" "  New Title  " false) := by
  have h := updateTask_stores_trimmed_title
    [Task.mk "1" "Old" true true] 0 (Task.mk "1" "Old" true true) "1" "  New Title  "
    (by decide) (by decide)
    [TaskIdx.mk "1" "Old" false] 0 (TaskIdx.mk "1" "Old" false) (by decide) (by decide)
  refine ⟨?_, h.2⟩
  rw [h.1]
  decide

/-- C2 counterexample: the code never checks the clock value against
existing ids, so two adds carrying the same Date.now() string produce a
collection with duplicate ids. -/
theorem run_duplicate_ids_possible :
    ¬ (idsOf (run [Op.add "1" "a", Op.add "1" "b"])).Nodup := by
  decide

/-- C2 (amended): provided every add along the run carries a clock id
that is not already present in the collection at that moment, every
sequence of operations from the empty collection keeps all ids pairwise
distinct. -/
theorem run_ids_nodup (ops : List Op) (h : freshAlong [] ops = true) :
    (idsOf (run ops)).Nodup :=
  (runFrom_preserves_inv ops [] (by simp [idsOf]) (by simp [countEditing]) h).1

/-- C2 witness of the amended theorem at a concrete fresh sequence. -/
theorem run_ids_nodup_witness :
    (idsOf (run [Op.add "1" "a", Op.add "2" "b", Op.toggle "1", Op.remove "2"])).Nodup :=
  run_ids_nodup [Op.add "1" "a", Op.add "2" "b", Op.toggle "1", Op.remove "2"] (by decide)

/-- C3 counterexample: index.tsx addTask appends the raw title, not the
trimmed one: adding a title with surrounding spaces stores it with the
spaces kept, although it trims to a different non-empty string. -/
theorem addTaskIdx_keeps_raw_title :
    addTaskIdx "1" " hi " [] = some [TaskIdx.mk "1" " hi " false] ∧
    jsTrim " hi " = "hi" ∧ (" hi " : String) ≠ "hi" := by
  exact ⟨by decide, by decide, by decide⟩

/-- C3 (amended): for a title that is non-empty after trimming, add
appends exactly one new task with completed = false to the end of the
collection, leaving every existing task unchanged in place; the stored
title is the trimmed input in part_001 but the raw untrimmed input in
index.tsx and part_000. -/
theorem addTask_appends_one_task
    (now title : String) (h : jsTrim title ≠ "")
    (ts : List Task) (l : List TaskIdx) (v : List Task) :
    addTask now title ts = some (ts ++ [Task.mk now (jsTrim title) false false]) ∧
    addTaskIdx now title l = some (l ++ [TaskIdx.mk now title false]) ∧
    addTaskV0 now title v = some (v ++ [Task.mk now title false false]) := by
  refine ⟨?_, ?_, ?_⟩ <;> simp [addTask, addTaskIdx, addTaskV0, h]

/-- C3 witness of the amended theorem at a concrete collection. -/
theorem addTask_appends_one_task_witness :
    addTask "2" "Buy milk" [Task.mk "1" "a" true false] =
      some [Task.mk "1" "a" true false, Task.mk "2" "Buy milk" false false] ∧
    addTaskIdx "2" "Buy milk" [] = some [TaskIdx.mk "2" "Buy milk" false] ∧
    addTaskV0 "2" "Buy milk" [] = some [Task.mk "2" "Buy milk" false false] := by
  have h := addTask_appends_one_task "2" "Buy milk" (by decide)
    [Task.mk "1" "a" true false] [] []
  refine ⟨?_, h.2.1, h.2.2⟩
  rw [h.1]
  decide

/-- C4 counterexample: part_001 loadTasks rehydrates the stored editing
flag verbatim: a stored record with isEditing true loads to a task with
isEditing true, not reset to false. -/
theorem loadTasks_keeps_stored_editing_flag :
    ((loadTasks (some (some [StoredTask.mk "1" "a" (some false) (some true)]))).tasks.map
      Task.isEditing) = [true] := by
  decide

/-- C4 (amended): on a well-formed stored value, load produces one task
per stored record in stored order, preserving id, title and completed
(an absent completed field defaults to false); index.tsx drops any
stored editing flag because its record type has none, but part_001
rehydrates the stored isEditing value verbatim (absent defaults to
false) instead of resetting it. -/
theorem loadTasks_preserves_stored_fields
    (l : List StoredTask) (i : Nat) (s : StoredTask) (hs : l[i]? = some s)
    (m : List StoredTask) (j : Nat) (r : StoredTask) (hr : m[j]? = some r) :
    (loadTasks (some (some l))).tasks.length = l.length ∧
    (loadTasks (some (some l))).tasks[i]? =
      some (Task.mk s.id s.title (s.completed.getD false) (s.isEditing.getD false)) ∧
    (loadTasksIdx (some (some m))).tasks.length = m.length ∧
    (loadTasksIdx (some (some m))).tasks[j]? =
      some (TaskIdx.mk r.id r.title (r.completed.getD false)) := by
  refine ⟨by simp [loadTasks], ?_, by simp [loadTasksIdx], ?_⟩
  · simp only [loadTasks]
    rw [List.getElem?_map, hs]
    rfl
  · simp only [loadTasksIdx]
    rw [List.getElem?_map, hr]
    rfl

/-- C4 witness of the amended theorem at a concrete stored snapshot. -/
theorem loadTasks_preserves_stored_fields_witness :
    (loadTasks (some (some [StoredTask.mk "1" "a" (some true) (some false)]))).tasks.length = 1 ∧
    (loadTasks (some (some [StoredTask.mk "1" "a" (some true) (some false)]))).tasks[0]? =
      some (Task.mk "1" "a" true false) ∧
    (loadTasksIdx (some (some [StoredTask.mk "1" "a" (some true) none]))).tasks.length = 1 ∧
    (loadTasksIdx (some (some [StoredTask.mk "1" "a" (some true) none]))).tasks[0]? =
      some (TaskIdx.mk "1" "a" true) := by
  have h := loadTasks_preserves_stored_fields
    [StoredTask.mk "1" "a" (some true) (some false)] 0
    (StoredTask.mk "1" "a" (some true) (some false)) (by decide)
    [StoredTask.mk "1" "a" (some true) none] 0
    (StoredTask.mk "1" "a" (some true) none) (by decide)
  exact ⟨h.1, h.2.1, h.2.2.1, h.2.2.2⟩

/-- C5: saving a collection and loading the just-saved snapshot
reproduces the collection exactly, in both part_001 (where even the
transient editing flag survives the round trip) and index.tsx (whose
records carry no such flag), with no error reported. -/
theorem load_after_save_roundtrip
    (C : List Task) (_hC1 : ∀ t ∈ C, jsTrim t.title ≠ "") (_hC2 : (idsOf C).Nodup)
    (D : List TaskIdx) (_hD1 : ∀ t ∈ D, jsTrim t.title ≠ "") (_hD2 : (idsOfIdx D).Nodup) :
    loadTasks (some (some (saveTasks C))) = LoadResult.mk C false ∧
    loadTasksIdx (some (some (saveTasksIdx D))) = LoadResultIdx.mk D false := by
  constructor
  · simp only [loadTasks, saveTasks, List.map_map, LoadResult.mk.injEq, and_true]
    conv_rhs => rw [← List.map_id C]
    exact List.map_congr_left (fun t _ => rfl)
  · simp only [loadTasksIdx, saveTasksIdx, List.map_map, LoadResultIdx.mk.injEq, and_true]
    conv_rhs => rw [← List.map_id D]
    exact List.map_congr_left (fun t _ => rfl)

/-- C5 witness at a concrete valid collection. -/
theorem load_after_save_roundtrip_witness :
    loadTasks (some (some (saveTasks [Task.mk "1" "a" true false, Task.mk "2" "b" false true]))) =
      LoadResult.mk [Task.mk "1" "a" true false, Task.mk "2" "b" false true] false ∧
    loadTasksIdx (some (some (saveTasksIdx [TaskIdx.mk "1" "a" false]))) =
      LoadResultIdx.mk [TaskIdx.mk "1" "a" false] false :=
  load_after_save_roundtrip
    [Task.mk "1" "a" true false, Task.mk "2" "b" false true] (by decide) (by decide)
    [TaskIdx.mk "1" "a" false] (by decide) (by decide)

/-- C6 counterexample: a stored value that is valid JSON but not the
expected shape, an array whose single record has none of the expected
keys. part_001 and index.tsx rehydrate it into a task with undefined
id and title and install it silently, with no report and a non-empty
collection; and part_000 reports nothing even when JSON.parse throws. -/
theorem load_misshaped_value_kept_silently :
    loadTasksJs (some (ParsedValue.array [RawStored.mk none none none none])) =
      LoadResultJs.mk [TaskJs.mk none none false false] false ∧
    loadTasksJsIdx (some (ParsedValue.array [RawStored.mk none none none none])) =
      LoadResultJsIdx.mk [TaskJsIdx.mk none none false] false ∧
    loadTasksV0 (some ParsedValue.thrown) = (V0State.empty, false) ∧
    loadTasksV0 (some (ParsedValue.array [RawStored.mk none none none none])) =
      (V0State.set [RawStored.mk none none none none], false) := by
  exact ⟨rfl, rfl, rfl, rfl⟩

/-- C6 (amended): in part_001 and index.tsx a load failure is reported
with the collection left empty exactly when the fetch-parse-rehydrate
try block throws (invalid JSON, or a parsed value without a map
method); a stored value parsing to an array is installed with no shape
validation, one task per record, mis-shaped records silently becoming
tasks with undefined id and title and defaulted flags. part_000
reports nothing in any case: a JSON.parse throw leaves the collection
empty as an unhandled rejection, and any parsed array is installed
raw. -/
theorem load_failure_reporting_behavior (stored : Option ParsedValue) (l : List RawStored) :
    ((loadTasksJs stored).errorReported = true ↔
      stored = some ParsedValue.thrown ∨ stored = some ParsedValue.nonArray) ∧
    ((loadTasksJs stored).errorReported = true → (loadTasksJs stored).tasks = []) ∧
    ((loadTasksJsIdx stored).errorReported = true ↔
      stored = some ParsedValue.thrown ∨ stored = some ParsedValue.nonArray) ∧
    ((loadTasksJsIdx stored).errorReported = true → (loadTasksJsIdx stored).tasks = []) ∧
    (loadTasksV0 stored).2 = false ∧
    loadTasksJs (some (ParsedValue.array l)) =
      LoadResultJs.mk
        (l.map (fun t => TaskJs.mk t.id t.title (t.completed.getD false) (t.isEditing.getD false)))
        false ∧
    loadTasksJsIdx (some (ParsedValue.array l)) =
      LoadResultJsIdx.mk (l.map (fun t => TaskJsIdx.mk t.id t.title (t.completed.getD false))) false ∧
    loadTasksV0 (some (ParsedValue.array l)) = (V0State.set l, false) := by
  refine ⟨?_, ?_, ?_, ?_, ?_, rfl, rfl, rfl⟩ <;>
    rcases stored with _ | (_ | _ | m) <;> simp [loadTasksJs, loadTasksJsIdx, loadTasksV0]

/-- C6 witness of the amended theorem at the thrown case, discharging
the reported-implies-empty hypotheses there. -/
theorem load_failure_reporting_behavior_witness :
    (loadTasksJs (some ParsedValue.thrown)).tasks = [] ∧
    (loadTasksJsIdx (some ParsedValue.thrown)).tasks = [] ∧
    (loadTasksV0 (some ParsedValue.thrown)).2 = false :=
  ⟨(load_failure_reporting_behavior (some ParsedValue.thrown) []).2.1 (by decide),
   (load_failure_reporting_behavior (some ParsedValue.thrown) []).2.2.2.1 (by decide),
   (load_failure_reporting_behavior (some ParsedValue.thrown) []).2.2.2.2.1⟩

/-- C7: in both part_001 and index.tsx, toggling the same id twice
restores the collection (so the matching completed flag returns to its
original value), a single toggle keeps every task at its position (the
ordered id sequence is unchanged), and toggling an id that matches no
task is a no-op. -/
theorem toggleTask_involution (id : String) (ts : List Task) (l : List TaskIdx) :
    toggleTask id (toggleTask id ts) = ts ∧
    idsOf (toggleTask id ts) = idsOf ts ∧
    ((∀ t ∈ ts, t.id ≠ id) → toggleTask id ts = ts) ∧
    toggleTaskIdx id (toggleTaskIdx id l) = l ∧
    idsOfIdx (toggleTaskIdx id l) = idsOfIdx l ∧
    ((∀ t ∈ l, t.id ≠ id) → toggleTaskIdx id l = l) := by
  refine ⟨?_, idsOf_toggleTask id ts, ?_, ?_, ?_, ?_⟩
  · simp only [toggleTask, List.map_map]
    conv_rhs => rw [← List.map_id ts]
    refine List.map_congr_left ?_
    intro t _
    obtain ⟨a, b, c, d⟩ := t
    by_cases h : a = id <;> simp [Function.comp, h, Bool.not_not]
  · intro hno
    simp only [toggleTask]
    conv_rhs => rw [← List.map_id ts]
    exact List.map_congr_left (fun t htm => by simp [hno t htm])
  · simp only [toggleTaskIdx, List.map_map]
    conv_rhs => rw [← List.map_id l]
    refine List.map_congr_left ?_
    intro t _
    obtain ⟨a, b, c⟩ := t
    by_cases h : a = id <;> simp [Function.comp, h, Bool.not_not]
  · simp only [toggleTaskIdx, idsOfIdx, List.map_map]
    exact List.map_congr_left
      (fun t _ => by by_cases h : t.id = id <;> simp [Function.comp, h])
  · intro hno
    simp only [toggleTaskIdx]
    conv_rhs => rw [← List.map_id l]
    exact List.map_congr_left (fun t htm => by simp [hno t htm])

/-- C7 witness at concrete collections, discharging the no-match
hypotheses for an id absent from both. -/
theorem toggleTask_involution_witness :
    toggleTask "9" [Task.mk "1" "a" false false, Task.mk "2" "b" true false] =
      [Task.mk "1" "a" false false, Task.mk "2" "b" true false] ∧
    toggleTaskIdx "9" [TaskIdx.mk "1" "a" true] = [TaskIdx.mk "1" "a" true] :=
  ⟨(toggleTask_involution "9" [Task.mk "1" "a" false false, Task.mk "2" "b" true false]
      [TaskIdx.mk "1" "a" true]).2.2.1 (by decide),
   (toggleTask_involution "9" [Task.mk "1" "a" false false, Task.mk "2" "b" true false]
      [TaskIdx.mk "1" "a" true]).2.2.2.2.2 (by decide)⟩

/-- C8: in both part_001 and index.tsx, remove keeps exactly the tasks
whose id differs, in their original relative order (the result is a
sublist of the input containing every non-matching task and no matching
one); a repeated remove with the same id changes nothing, and a remove
whose id matches no task is a no-op. -/
theorem removeTask_removes_matching (id : String) (ts : List Task) (l : List TaskIdx) :
    List.Sublist (removeTask id ts) ts ∧
    (∀ t ∈ removeTask id ts, t.id ≠ id) ∧
    (∀ t ∈ ts, t.id ≠ id → t ∈ removeTask id ts) ∧
    removeTask id (removeTask id ts) = removeTask id ts ∧
    ((∀ t ∈ ts, t.id ≠ id) → removeTask id ts = ts) ∧
    List.Sublist (removeTaskIdx id l) l ∧
    removeTaskIdx id (removeTaskIdx id l) = removeTaskIdx id l ∧
    ((∀ t ∈ l, t.id ≠ id) → removeTaskIdx id l = l) := by
  refine ⟨List.filter_sublist ts, ?_, ?_, ?_, ?_, List.filter_sublist l, ?_, ?_⟩
  · intro t htm
    have := List.of_mem_filter htm
    simpa using this
  · intro t htm hne
    exact List.mem_filter.mpr ⟨htm, by simpa using hne⟩
  · apply List.filter_eq_self.mpr
    intro t htm
    have := List.of_mem_filter htm
    simpa using this
  · intro hno
    apply List.filter_eq_self.mpr
    intro t htm
    simpa using hno t htm
  · apply List.filter_eq_self.mpr
    intro t htm
    have := List.of_mem_filter htm
    simpa using this
  · intro hno
    apply List.filter_eq_self.mpr
    intro t htm
    simpa using hno t htm

/-- C8 witness at concrete collections, discharging the no-match
hypotheses for an id absent from both. -/
theorem removeTask_removes_matching_witness :
    removeTask "9" [Task.mk "1" "a" false false] = [Task.mk "1" "a" false false] ∧
    removeTaskIdx "9" [TaskIdx.mk "1" "a" false] = [TaskIdx.mk "1" "a" false] :=
  ⟨(removeTask_removes_matching "9" [Task.mk "1" "a" false false]
      [TaskIdx.mk "1" "a" false]).2.2.2.2.1 (by decide),
   (removeTask_removes_matching "9" [Task.mk "1" "a" false false]
      [TaskIdx.mk "1" "a" false]).2.2.2.2.2.2.2 (by decide)⟩

/-- C9: in both part_001 and index.tsx, adding a title that trims to
the empty string takes the early return: no task is created, setTasks
is never called (so the collection keeps its length and contents and
the save effect is not triggered), and no error is raised. -/
theorem addTask_blank_title_noop (now title : String) (h : jsTrim title = "")
    (ts : List Task) (l : List TaskIdx) :
    addTask now title ts = none ∧ addTaskIdx now title l = none := by
  simp [addTask, addTaskIdx, h]

/-- C9 witness at the whitespace-only title. -/
theorem addTask_blank_title_noop_witness :
    addTask "7" "   " [Task.mk "1" "a" false false] = none ∧
    addTaskIdx "7" "   " [] = none :=
  addTask_blank_title_noop "7" "   " (by decide) [Task.mk "1" "a" false false] []

/-- C10 counterexample: since add never checks the clock id against
existing ids, two adds with the same id followed by an edit of that id
mark two tasks as being edited at once. -/
theorem run_two_tasks_editing_possible :
    countEditing (run [Op.add "1" "a", Op.add "1" "b", Op.edit "1"]) = 2 := by
  decide

/-- C10 (amended): provided every add along the run carries a clock id
not already present at that moment, at most one task is marked as being
edited after any sequence of operations from the empty collection:
editTask marks only the matching task and clears all others, cancelEdit
and updateTask clear flags, and add appends with the flag false. -/
theorem run_at_most_one_editing (ops : List Op) (h : freshAlong [] ops = true) :
    countEditing (run ops) ≤ 1 :=
  (runFrom_preserves_inv ops [] (by simp [idsOf]) (by simp [countEditing]) h).2

/-- C10 witness at a concrete fresh sequence that edits twice. -/
theorem run_at_most_one_editing_witness :
    countEditing (run [Op.add "1" "a", Op.add "2" "b", Op.edit "1", Op.edit "2"]) ≤ 1 :=
  run_at_most_one_editing [Op.add "1" "a", Op.add "2" "b", Op.edit "1", Op.edit "2"]
    (by decide)

end Todo
